import Mathlib

/-!
Verification of the UMT portal TUI extraction/parsing engine.

The Go source is shallowly embedded: Go strings become `List Char`, Go maps
become association lists in insertion order, `float32` values become exact
rationals (`Rat`), and network effects are modelled by explicit per-attempt
outcome oracles.  Every rational value is built through `mkRat` and the
structural `Rat` projections so that all definitions evaluate by kernel
reduction.
-/

/-- Strings are modelled as lists of characters. -/
abbrev Str := List Char

/-- Model of `unicode.IsSpace` restricted to the ASCII whitespace characters
that occur in portal report data. -/
def isSpaceChar (c : Char) : Bool :=
  c = ' ' || c = '\t' || c = '\n' || c = '\r'

/-- Model of `strings.TrimSpace`: leading and trailing whitespace removed. -/
def goTrimSpace (s : Str) : Str :=
  ((s.dropWhile isSpaceChar).reverse.dropWhile isSpaceChar).reverse

/-- Whether the second string is a leading substring of the first
(`strings.HasPrefix`). -/
def hasPre : Str → Str → Bool
  | _, [] => true
  | [], _ :: _ => false
  | c :: s, p :: ps => c = p && hasPre s ps

/-- Model of `strings.TrimPrefix`. -/
def trimPre (s p : Str) : Str :=
  if hasPre s p then s.drop p.length else s

/-- Whether the second string is a trailing substring of the first
(`strings.HasSuffix`). -/
def hasSuf (s suf : Str) : Bool := hasPre s.reverse suf.reverse

/-- Model of `strings.TrimSuffix`. -/
def trimSuf (s suf : Str) : Str :=
  if hasSuf s suf then s.take (s.length - suf.length) else s

/-- Model of `strings.Contains`. -/
def containsSub : Str → Str → Bool
  | [], sub => sub.isEmpty
  | c :: rest, sub => hasPre (c :: rest) sub || containsSub rest sub

/-- Fuel-driven worker for `splitOnSub`; each step consumes at least one
character, so `s.length` fuel always suffices. -/
def splitOnSubAux (sep : Str) : Nat → Str → Str → List Str
  | _, [], acc => [acc.reverse]
  | 0, s, acc => [acc.reverse ++ s]
  | fuel + 1, c :: rest, acc =>
    if (!sep.isEmpty) && hasPre (c :: rest) sep then
      acc.reverse :: splitOnSubAux sep fuel ((c :: rest).drop sep.length) []
    else
      splitOnSubAux sep fuel rest (c :: acc)

/-- Model of `strings.Split` for the non-empty separators used here. -/
def splitOnSub (s sep : Str) : List Str := splitOnSubAux sep s.length s []

/-- Model of `strings.Replace(s, old, new, 1)` for the non-empty `old`
strings used here. -/
def replaceFirst : Str → Str → Str → Str
  | [], _, _ => []
  | c :: rest, old, new =>
    if (!old.isEmpty) && hasPre (c :: rest) old then new ++ (c :: rest).drop old.length
    else c :: replaceFirst rest old new

/-- Model of `strings.Fields`: maximal runs of non-whitespace characters. -/
def goFields (s : Str) : List Str :=
  (List.splitOnP isSpaceChar s).filter (fun w => !w.isEmpty)

/-- Model of `strings.EqualFold`, adequate for the ASCII data compared
here. -/
def eqFold (a b : Str) : Bool := a.map Char.toLower == b.map Char.toLower

/-- Numeric value of a decimal digit character. -/
def digitVal (c : Char) : Nat := c.toNat - '0'.toNat

/-- Accumulating decimal reader (the digit loop of `strconv`). -/
def parseNatAux : Nat → Str → Option Nat
  | acc, [] => some acc
  | acc, c :: rest => if c.isDigit then parseNatAux (acc * 10 + digitVal c) rest else none

/-- All-digit string to `Nat`; `none` on the empty string or a non-digit. -/
def parseDigits : Str → Option Nat
  | [] => none
  | c :: rest => parseNatAux 0 (c :: rest)

/-- Model of `strconv.Atoi` (the machine-word range check is omitted; no
claim here involves overflow). -/
def parseGoInt (s : Str) : Option Int :=
  match s with
  | [] => none
  | c :: rest =>
    if c = '+' then (parseDigits rest).map (fun n => (n : Int))
    else if c = '-' then (parseDigits rest).map (fun n => -(n : Int))
    else (parseDigits (c :: rest)).map (fun n => (n : Int))

/-- Decimal value of a digit string, most significant digit first. -/
def digitsToNatAux : Nat → Str → Nat
  | acc, [] => acc
  | acc, c :: rest => digitsToNatAux (acc * 10 + digitVal c) rest

/-- Decimal value of a digit string. -/
def digitsToNat (s : Str) : Nat := digitsToNatAux 0 s

/-- Optional sign of a Go numeric literal. -/
def splitSign : Str → Bool × Str
  | [] => (false, [])
  | c :: rest =>
    if c = '+' then (false, rest)
    else if c = '-' then (true, rest)
    else (false, c :: rest)

/-- Optional fraction part after the decimal point. -/
def splitFrac : Str → Str × Str
  | [] => ([], [])
  | c :: rest =>
    if c = '.' then (rest.takeWhile Char.isDigit, rest.dropWhile Char.isDigit) else ([], c :: rest)

/-- Exponent suffix of a Go float literal: empty, or `e`/`E` followed by an
optionally signed digit string. -/
def parseExpSuffix : Str → Option Int
  | [] => some 0
  | c :: rest => if c = 'e' || c = 'E' then parseGoInt rest else none

/-- Model of `strconv.ParseFloat` on decimal literals (the only shapes the
portal emits); hexadecimal floats, underscores, infinities and the final
float32 rounding step are outside the model, which keeps exact values. -/
def parseGoFloat (s : Str) : Option Rat :=
  let sr := splitSign s
  let d1 := sr.2.takeWhile Char.isDigit
  let r1 := sr.2.dropWhile Char.isDigit
  let fr := splitFrac r1
  let d2 := fr.1
  match parseExpSuffix fr.2 with
  | none => none
  | some e =>
    if d1.isEmpty && d2.isEmpty then none
    else
      let mant : Int :=
        if sr.1 then -(digitsToNat (d1 ++ d2) : Int) else (digitsToNat (d1 ++ d2) : Int)
      if 0 ≤ e then some (mkRat (mant * ((10 ^ e.toNat : Nat) : Int)) (10 ^ d2.length))
      else some (mkRat mant (10 ^ (d2.length + (-e).toNat)))

/-- The decimal digit character for `d < 10` (collapsing everything from 9
upward, which the callers never reach). -/
def digitChar10 (d : Nat) : Char :=
  if d = 0 then '0' else if d = 1 then '1' else if d = 2 then '2'
  else if d = 3 then '3' else if d = 4 then '4' else if d = 5 then '5'
  else if d = 6 then '6' else if d = 7 then '7' else if d = 8 then '8' else '9'

/-- Fuel-driven decimal printer; `n / 10 < n` for `n ≥ 10`, so `n + 1` fuel
always suffices. -/
def natDigitsAux : Nat → Nat → Str
  | 0, _ => []
  | fuel + 1, n =>
    if n < 10 then [digitChar10 n] else natDigitsAux fuel (n / 10) ++ [digitChar10 (n % 10)]

/-- Decimal digits of a natural number. -/
def natDigits (n : Nat) : Str := natDigitsAux (n + 1) n

/-- Model of `strconv.Itoa`. -/
def intToStr : Int → Str
  | Int.ofNat n => natDigits n
  | Int.negSucc n => '-' :: natDigits (n + 1)

/-- The two-digit hundredths field `00`–`99`. -/
def padTwo (n : Nat) : Str := if n < 10 then '0' :: natDigits n else natDigits n

/-- The rounded hundredths count `⌊|q| * 100 + 1/2⌋`, computed on the
normalized numerator and denominator so that it evaluates by kernel
reduction. -/
def centsOf (q : Rat) : Nat := (q.num.natAbs * 200 + q.den) / (2 * q.den)

/-- Model of `fmt.Sprintf("%.2f", q)`: sign, integer part, and exactly two
fractional digits, rounding half away from zero on the magnitude. -/
def formatFix2 (q : Rat) : Str :=
  let cents := centsOf q
  (if q.num < 0 then ['-'] else []) ++ natDigits (cents / 100) ++ '.' :: padTwo (cents % 100)

/-- Go struct `Attendance`: one lecture record. -/
structure Attendance where
  LectureNumber : Int
  LectureDate : Str
  Attendance : Bool
  Faculty : Str
deriving DecidableEq

/-- Go struct `Course` (schedule metadata plus the lazily populated
attendance data). -/
structure Course where
  ID : Str
  Code : Str
  Title : Str
  CreditHours : Str
  CourseType : Str
  FacultyName : Str
  FacultyEmail : Str
  Mode : Str
  Section : Str
  Semester : Str
  Room : Str
  Days : List Str
  StartTime : Str
  EndTime : Str
  TotalLectures : Int
  AttendancePercentage : Int
  Attendance : List Attendance
deriving DecidableEq

/-- Go struct `TranscriptCourse`. -/
structure TranscriptCourse where
  Code : Str
  Title : Str
  CreditHours : Int
  Grade : Str
  GradePoint : Rat
deriving DecidableEq

/-- Go struct `Semester`; equality is by the full field tuple, as for a Go
map key. -/
structure Semester where
  Name : Str
  CreditHoursEarned : Int
  CGPA : Rat
  SGPA : Rat
deriving DecidableEq

/-- Go struct `SemesterKey`: the derived ordering key. -/
structure SemesterKey where
  semester : Semester
  year : Int
  season : Int
deriving DecidableEq

/-- Go struct `Transcript`; the `Semester` map is an association list in
insertion order. -/
structure Transcript where
  Semester : List (Semester × List TranscriptCourse)
  CreditHoursEarned : Str
  CreditHoursForGPA : Str
  TotalGradePoints : Str
  TotalCGPA : Str
deriving DecidableEq

/-- Go struct `Credentials`. -/
structure Credentials where
  StudentID : Str
  Password : Str
deriving DecidableEq

/-- Go `ErrorCode` constants. -/
inductive ErrorCode where
  | ErrNone
  | ErrInvalidCredentials
  | ErrNetworkIssue
  | ErrParsingError
deriving DecidableEq

/-- One pass of the lecture-record loop of `fetchCourseAttendance`
(lines 513–534): groups of exactly four tokens, skipping a group whose
lecture-number token does not parse as an integer after the prefix strip. -/
def parseLectureRecs : List Str → List Attendance
  | a :: b :: c :: d :: rest =>
    (match parseGoInt (trimPre a ("Lecture No. ".data)) with
     | some n =>
       [{ LectureNumber := n, LectureDate := b,
          Attendance := eqFold c ("Present".data), Faculty := d }]
     | none => []) ++ parseLectureRecs rest
  | _ => []

/-- Total-lectures trailer (lines 536–540): strip the label, parse, default
to 0 on failure. -/
def totalLecturesOf (tok : Str) : Int :=
  match parseGoInt (trimPre tok ("Total Lectures : ".data)) with
  | some v => v
  | none => 0

/-- Percentage trailer (lines 542–548): strip both suffix spellings, trim,
parse, default to 0 on failure. -/
def attPct (tok : Str) : Int :=
  match parseGoInt (goTrimSpace (trimSuf (trimSuf tok (" % Attandence".data))
      (" % Attendance".data))) with
  | some v => v
  | none => 0

/-- The attendance update applied to the course once a big-enough response
body has been extracted (`fetchCourseAttendance`, lines 504–554): fewer than
6 tokens only clears the attendance list; otherwise the record groups in
positions `[4, n-2)` and the two trailer tokens are parsed. -/
def applyAttendance (c : Course) (toks : List Str) : Course :=
  if toks.length < 6 then { c with Attendance := [] }
  else
    { c with
      TotalLectures := totalLecturesOf (toks.getD (toks.length - 2) [])
      AttendancePercentage := attPct (toks.getD (toks.length - 1) [])
      Attendance := parseLectureRecs ((toks.drop 4).take (toks.length - 6)) }

/-- Model of `parseSpanData`: one pass with one-token lookahead filling the
four cumulative string totals of the transcript (the Go function always
returns nil, so no error case is modelled). -/
def parseSpanData (t : Transcript) : List Str → Transcript
  | [] => t
  | [_] => t
  | s0 :: nxt :: rest =>
    let sp := goTrimSpace s0
    let t1 :=
      if sp = ("Credit Hours Earned :".data) then
        { t with CreditHoursEarned := goTrimSpace nxt } else t
    let t2 :=
      if sp = ("Credit Hours for GPA :".data) then
        { t1 with CreditHoursForGPA := goTrimSpace nxt } else t1
    let t3 :=
      if sp = ("Total Grade Points :".data) then
        { t2 with TotalGradePoints := goTrimSpace nxt } else t2
    let t4 :=
      if sp = ("CGPA :".data) then
        { t3 with TotalCGPA :=
            goTrimSpace ((splitOnSub (goTrimSpace nxt) (" /".data)).getD 0 []) }
      else t3
    parseSpanData t4 (nxt :: rest)

/-- The accumulation state of the `parseTranscript` loop. -/
structure PTState where
  semesterData : List (Semester × List TranscriptCourse)
  currentSemester : Semester
  courses : List TranscriptCourse
  totalCreditHours : Int
  totalCreditHoursForGrade : Int
  totalGradePoints : Rat
deriving DecidableEq

/-- Go map insertion on the association-list model: replace the binding in
place if the key is present, otherwise append it. -/
def mapInsert (k : Semester) (v : List TranscriptCourse) :
    List (Semester × List TranscriptCourse) → List (Semester × List TranscriptCourse)
  | [] => [(k, v)]
  | (k', v') :: rest => if k' = k then (k, v) :: rest else (k', v') :: mapInsert k v rest

/-- Go map lookup on the association-list model (zero value when absent). -/
def mapGet (k : Semester) :
    List (Semester × List TranscriptCourse) → List TranscriptCourse
  | [] => []
  | (k', v) :: rest => if k' = k then v else mapGet k rest

/-- The fixed zero-grade-point set `{P, I, W, SA, S, NC, F}`. -/
def isZeroGradePointGrade (grade : Str) : Bool :=
  grade == ("P".data) || grade == ("I".data) || grade == ("W".data) ||
  grade == ("SA".data) || grade == ("S".data) || grade == ("NC".data) ||
  grade == ("F".data)

/-- The five column-header literals skipped by the dispatch (line 718). -/
def isHeaderLiteral (line : Str) : Bool :=
  line == ("Course Code".data) || line == ("Course Title".data) ||
  line == ("Cr. Hrs".data) || line == ("Grade".data) || line == ("G.P.".data)

/-- Season-substring test of the dispatch (line 723). -/
def containsSeason (line : Str) : Bool :=
  containsSub line ("Fall".data) || containsSub line ("Spring".data) ||
  containsSub line ("Summer".data)

/-- The literal-exclusion test applied to the grade-point lookahead token
(lines 781–785). -/
def gpLookaheadExcluded (gpStr : Str) : Bool :=
  containsSub gpStr ("Cr. Hrs. Earned:".data) || containsSub gpStr ("Fall".data) ||
  containsSub gpStr ("Spring".data) || containsSub gpStr ("Summer".data) ||
  containsSub gpStr ("Course Code".data)

/-- Addition on `Rat` routed through `mkRat` so that it kernel-reduces; it
is extensionally `Rat.add` (see `qadd_eq_add`). -/
def qadd (a b : Rat) : Rat :=
  mkRat (a.num * (b.den : Int) + b.num * (a.den : Int)) (a.den * b.den)

/-- The flush of the accumulated course list into the semester map, guarded
by a named and non-empty current semester (lines 724–726 and 820–822). -/
def ptFlush (st : PTState) : PTState :=
  if st.currentSemester.Name ≠ [] ∧ st.courses ≠ [] then
    { st with semesterData := mapInsert st.currentSemester st.courses st.semesterData }
  else st

/-- Fuel-driven model of the `parseTranscript` token loop (lines 714–818);
every iteration consumes at least one token, so `toks.length` fuel is always
enough. -/
def ptLoopAux : Nat → List Str → PTState → PTState
  | 0, _, st => st
  | _, [], st => st
  | fuel + 1, tok :: rest, st =>
    let line := goTrimSpace tok
    if isHeaderLiteral line then ptLoopAux fuel rest st
    else if containsSeason line then
      let st' := ptFlush st
      ptLoopAux fuel rest
        { st' with
          currentSemester :=
            { Name := line, CreditHoursEarned := 0, CGPA := (0 : Rat), SGPA := (0 : Rat) }
          courses := [] }
    else if containsSub line ("Cr. Hrs. Earned:".data) then
      let parts := splitOnSub line ("CGPA:".data)
      let st' :=
        if 2 ≤ parts.length then
          let creditHoursPart :=
            goTrimSpace (replaceFirst (parts.getD 0 []) ("Cr. Hrs. Earned:".data) [])
          let st1 :=
            match parseGoInt creditHoursPart with
            | some ch =>
              { st with
                currentSemester := { st.currentSemester with CreditHoursEarned := ch }
                totalCreditHours := st.totalCreditHours + ch }
            | none => st
          match parseGoFloat (goTrimSpace (parts.getD 1 [])) with
          | some cg => { st1 with currentSemester := { st1.currentSemester with CGPA := cg } }
          | none => st1
        else st
      ptLoopAux fuel rest st'
    else if containsSub line ("SGPA:".data) then
      let st' :=
        match parseGoFloat (goTrimSpace (replaceFirst line ("SGPA:".data) [])) with
        | some sg => { st with currentSemester := { st.currentSemester with SGPA := sg } }
        | none => st
      ptLoopAux fuel rest st'
    else
      match rest with
      | t1 :: t2 :: t3 :: rest3 =>
        let title := goTrimSpace t1
        let grade := goTrimSpace t3
        match parseGoInt (goTrimSpace t2) with
        | some creditHours =>
          if isZeroGradePointGrade grade then
            let st1 :=
              if grade = ("F".data) ∧ ¬ containsSub title ("[R]".data) then
                { st with totalCreditHoursForGrade := st.totalCreditHoursForGrade + creditHours }
              else st
            let course : TranscriptCourse :=
              { Code := line, Title := title, CreditHours := creditHours,
                Grade := grade, GradePoint := (0 : Rat) }
            ptLoopAux fuel rest3 { st1 with courses := st1.courses ++ [course] }
          else
            match rest3 with
            | t4 :: rest4 =>
              let gpStr := goTrimSpace t4
              match parseGoFloat gpStr with
              | some gp =>
                if gpLookaheadExcluded gpStr then
                  let course : TranscriptCourse :=
                    { Code := line, Title := title, CreditHours := creditHours,
                      Grade := grade, GradePoint := (0 : Rat) }
                  ptLoopAux fuel rest3 { st with courses := st.courses ++ [course] }
                else
                  let st1 :=
                    if gp ≠ (0 : Rat) then
                      { st with totalCreditHoursForGrade :=
                          st.totalCreditHoursForGrade + creditHours }
                    else st
                  let course : TranscriptCourse :=
                    { Code := line, Title := title, CreditHours := creditHours,
                      Grade := grade, GradePoint := gp }
                  let st2 := { st1 with courses := st1.courses ++ [course] }
                  let st3 :=
                    if (0 : Rat) < gp then
                      { st2 with totalGradePoints := qadd st2.totalGradePoints gp }
                    else st2
                  ptLoopAux fuel rest4 st3
              | none =>
                let course : TranscriptCourse :=
                  { Code := line, Title := title, CreditHours := creditHours,
                    Grade := grade, GradePoint := (0 : Rat) }
                ptLoopAux fuel rest3 { st with courses := st.courses ++ [course] }
            | [] =>
              let course : TranscriptCourse :=
                { Code := line, Title := title, CreditHours := creditHours,
                  Grade := grade, GradePoint := (0 : Rat) }
              ptLoopAux fuel rest3 { st with courses := st.courses ++ [course] }
        | none => ptLoopAux fuel rest st
      | _ => ptLoopAux fuel rest st

/-- The empty initial state of the `parseTranscript` pass. -/
def ptInit : PTState :=
  { semesterData := []
    currentSemester := { Name := [], CreditHoursEarned := 0, CGPA := (0 : Rat), SGPA := (0 : Rat) }
    courses := [], totalCreditHours := 0, totalCreditHoursForGrade := 0
    totalGradePoints := (0 : Rat) }

/-- The state after the token loop and the final flush (lines 820–822). -/
def ptFinal (toks : List Str) : PTState := ptFlush (ptLoopAux toks.length toks ptInit)

/-- Season word to ordinal (`parseAndSortSemesters`, lines 310–320). -/
def seasonOrdinal (w : Str) : Option Int :=
  let lw := w.map Char.toLower
  if lw = ("spring".data) then some 1
  else if lw = ("summer".data) then some 2
  else if lw = ("fall".data) then some 3
  else none

/-- The (year, season) parse of one semester heading (`parseAndSortSemesters`
loop body, lines 300–327): at least two whitespace fields, an integer year in
the second, a season word in the first. -/
def parseSemKey (sem : Semester) : Option SemesterKey :=
  match goFields sem.Name with
  | p0 :: p1 :: _ =>
    match parseGoInt p1 with
    | some year =>
      match seasonOrdinal p0 with
      | some season => some { semester := sem, year := year, season := season }
      | none => none
    | none => none
  | _ => none

/-- Go's `less` comparator passed to `sort.Slice` (lines 329–334). -/
def keyLT (a b : SemesterKey) : Bool :=
  if a.year = b.year then decide (a.season < b.season) else decide (a.year < b.year)

/-- Insertion of a key into a list sorted by `keyLT` (stable: a new key goes
after existing keys it is not strictly below). -/
def insKey (x : SemesterKey) : List SemesterKey → List SemesterKey
  | [] => [x]
  | y :: ys => if keyLT x y then x :: y :: ys else y :: insKey x ys

/-- Sorting model for `sort.Slice` with the `keyLT` comparator. -/
def sortKeys : List SemesterKey → List SemesterKey
  | [] => []
  | x :: xs => insKey x (sortKeys xs)

/-- Model of `parseAndSortSemesters`: keep the headings that parse, sorted
ascending by (year, season). -/
def parseAndSortSemesters (data : List (Semester × List TranscriptCourse)) :
    List SemesterKey :=
  sortKeys (data.filterMap (fun p => parseSemKey p.1))

/-- The semester map stored on the transcript by `parseTranscript`
(lines 824–829): rebuilt from only the chronologically parseable keys. -/
def ptStored (toks : List Str) : List (Semester × List TranscriptCourse) :=
  let st := ptFinal toks
  (parseAndSortSemesters st.semesterData).foldl
    (fun acc key => mapInsert key.semester (mapGet key.semester st.semesterData) acc) []

/-- Model of `parseTranscript`'s effect on the stored transcript: only the
`Semester` field is written; the running totals of the pass are local
variables that are discarded. -/
def parseTranscriptModel (t : Transcript) (toks : List Str) : Transcript :=
  { t with Semester := ptStored toks }

/-- Go struct `SerializableSemester`. -/
structure SerializableSemester where
  Name : Str
  CreditHoursEarned : Str
  CGPA : Str
  SGPA : Str
  Courses : List TranscriptCourse
deriving DecidableEq

/-- Go struct `SerializableTranscript`. -/
structure SerializableTranscript where
  Semesters : List SerializableSemester
  CreditHoursEarned : Str
  CreditHoursForGPA : Str
  TotalGradePoints : Str
  TotalCGPA : Str
deriving DecidableEq

/-- One semester binding serialized for the cache (`ToSerializable` loop
body, lines 357–365): integer and GPA fields become decimal strings, the
GPA strings with exactly two decimal places. -/
def serSem (p : Semester × List TranscriptCourse) : SerializableSemester :=
  { Name := p.1.Name
    CreditHoursEarned := intToStr p.1.CreditHoursEarned
    CGPA := formatFix2 p.1.CGPA
    SGPA := formatFix2 p.1.SGPA
    Courses := p.2 }

/-- One cached semester parsed back (`ToTranscript` loop body, lines
378–389); parse errors are ignored in Go, leaving the zero value. -/
def deserSem (s : SerializableSemester) : Semester :=
  { Name := s.Name
    CreditHoursEarned := (parseGoInt s.CreditHoursEarned).getD 0
    CGPA := (parseGoFloat s.CGPA).getD (0 : Rat)
    SGPA := (parseGoFloat s.SGPA).getD (0 : Rat) }

/-- Model of `Transcript.ToSerializable` (lines 355–374). -/
def Transcript.ToSerializable (t : Transcript) : SerializableTranscript :=
  { Semesters := t.Semester.map serSem
    CreditHoursEarned := t.CreditHoursEarned
    CreditHoursForGPA := t.CreditHoursForGPA
    TotalGradePoints := t.TotalGradePoints
    TotalCGPA := t.TotalCGPA }

/-- Model of `SerializableTranscript.ToTranscript` (lines 376–399). -/
def SerializableTranscript.ToTranscript (st : SerializableTranscript) : Transcript :=
  { Semester := st.Semesters.foldl (fun acc s => mapInsert (deserSem s) s.Courses acc) []
    CreditHoursEarned := st.CreditHoursEarned
    CreditHoursForGPA := st.CreditHoursForGPA
    TotalGradePoints := st.TotalGradePoints
    TotalCGPA := st.TotalCGPA }

/-- The retry budget of both report fetchers. -/
def maxRetries : Nat := 10

/-- The response-acceptance byte threshold of both report fetchers. -/
def sizeThreshold : Nat := 30000

/-- Outcome of one attendance-fetch attempt, as seen by the retry loop:
either some step before the final body read failed (request construction,
transport, hidden-field extraction, read — every such path sleeps and
retries), or a final response body of a given size was read and its token
stream extracted. -/
inductive AttAttempt where
  | earlyFail
  | finalBody (size : Nat) (toks : List Str)
deriving DecidableEq

/-- Result of the modelled attendance fetch, carrying the number of attempts
that were made. -/
inductive AttFetchResult where
  | success (attempts : Nat) (c : Course)
  | notFound
  | exhausted (attempts : Nat)
deriving DecidableEq

/-- The retry loop of `fetchCourseAttendance` (lines 350–558): an attempt
with an undersized final body retries like any earlier failure; a big-enough
body is parsed and, when the course id resolves, the loop returns
immediately. -/
def attRetryAux (att : Nat → AttAttempt) (courseExists : Bool) (c : Course) :
    Nat → Nat → AttFetchResult
  | 0, _ => .exhausted maxRetries
  | rem + 1, i =>
    match att i with
    | .earlyFail => attRetryAux att courseExists c rem (i + 1)
    | .finalBody size toks =>
      if size < sizeThreshold then attRetryAux att courseExists c rem (i + 1)
      else if courseExists then .success (i + 1) (applyAttendance c toks)
      else .notFound

/-- Model of the `fetchCourseAttendance` retry loop from its first attempt. -/
def fetchCourseAttendanceModel (att : Nat → AttAttempt) (courseExists : Bool)
    (c : Course) : AttFetchResult :=
  attRetryAux att courseExists c maxRetries 0

/-- The error values the transcript retry loop records in `lastErr`. -/
inductive GoErr where
  | stepMsg (msg : Str)
  | tooSmall (size : Nat)
  | noData
deriving DecidableEq

/-- Outcome of one transcript-fetch attempt before the size check: either a
step failed with a recorded error, or a final body of a given size was read,
with its span texts and extracted token stream. -/
inductive TrAttempt where
  | stepErr (e : GoErr)
  | finalBody (size : Nat) (spans : List Str) (toks : List Str)
deriving DecidableEq

/-- Result of the modelled transcript fetch: success with the attempt count
and updated transcript, or exhaustion carrying the attempt count and the
last recorded underlying error. -/
inductive TrFetchResult where
  | success (attempts : Nat) (t : Transcript)
  | exhausted (attempts : Nat) (lastErr : Option GoErr)
deriving DecidableEq

/-- The retry loop of `fetchTranscript` (lines 571–670): an undersized body
records `response too small` and retries; an empty extracted token stream
records `no transcript data` and retries; otherwise the span data and the
transcript are parsed and the loop returns immediately. -/
def trRetryAux (tr : Nat → TrAttempt) (t : Transcript) :
    Nat → Option GoErr → Nat → TrFetchResult
  | 0, lastErr, _ => .exhausted maxRetries lastErr
  | rem + 1, lastErr, i =>
    match tr i with
    | .stepErr e => trRetryAux tr t rem (some e) (i + 1)
    | .finalBody size spans toks =>
      if size < sizeThreshold then trRetryAux tr t rem (some (.tooSmall size)) (i + 1)
      else if toks.isEmpty then trRetryAux tr t rem (some .noData) (i + 1)
      else .success (i + 1) (parseTranscriptModel (parseSpanData t spans) toks)

/-- Model of the `fetchTranscript` retry loop from its first attempt. -/
def fetchTranscriptModel (tr : Nat → TrAttempt) (t : Transcript) : TrFetchResult :=
  trRetryAux tr t maxRetries none 0

/-- Outcome of one network step in the login sequence: `none` is transport
success, `some msg` a transport error. -/
structure LoginEnv where
  getErr : Option Str
  newReqErr : Option Str
  postErr : Option Str
  cookies : List Str
  userDataErr : Option Str
deriving DecidableEq

/-- Model of `loginAPI` (lines 28–76): empty credentials are rejected before
any network step; a transport error at any reached step is a network issue;
a transport-successful POST with fewer than 3 accumulated cookies is
invalid credentials; a profile-scrape failure after that is a parsing
error. -/
def loginAPI (env : LoginEnv) (creds : Credentials) :
    Option (List Str) × ErrorCode × Str :=
  if creds.StudentID = [] ∨ creds.Password = [] then
    (none, .ErrInvalidCredentials, [])
  else
    match env.getErr with
    | some e => (none, .ErrNetworkIssue, e)
    | none =>
      match env.newReqErr with
      | some e => (none, .ErrNetworkIssue, e)
      | none =>
        match env.postErr with
        | some e => (none, .ErrNetworkIssue, e)
        | none =>
          if env.cookies.length < 3 then (none, .ErrInvalidCredentials, [])
          else
            match env.userDataErr with
            | some e => (some env.cookies, .ErrParsingError, e)
            | none => (some env.cookies, .ErrNone, [])

/-! ### Digit and decimal-printer lemmas -/

theorem digitChar10_isDigit (d : Nat) : (digitChar10 d).isDigit = true := by
  unfold digitChar10
  repeat' split
  all_goals decide

theorem digitVal_digitChar10 (d : Nat) (hd : d < 10) : digitVal (digitChar10 d) = d := by
  unfold digitChar10
  split
  · subst d; decide
  rename_i h0
  split
  · subst d; decide
  rename_i h1
  split
  · subst d; decide
  rename_i h2
  split
  · subst d; decide
  rename_i h3
  split
  · subst d; decide
  rename_i h4
  split
  · subst d; decide
  rename_i h5
  split
  · subst d; decide
  rename_i h6
  split
  · subst d; decide
  rename_i h7
  split
  · subst d; decide
  rename_i h8
  have : d = 9 := by omega
  subst this; decide

theorem isDigit_ne_chars {c : Char} (h : c.isDigit = true) :
    c ≠ '+' ∧ c ≠ '-' ∧ c ≠ '.' ∧ c ≠ 'e' ∧ c ≠ 'E' ∧ isSpaceChar c = false := by
  refine ⟨?_, ?_, ?_, ?_, ?_, ?_⟩
  · intro hc; subst hc; simp at h
  · intro hc; subst hc; simp at h
  · intro hc; subst hc; simp at h
  · intro hc; subst hc; simp at h
  · intro hc; subst hc; simp at h
  · unfold isSpaceChar
    by_cases h1 : c = ' '
    · subst h1; simp at h
    by_cases h2 : c = '\t'
    · subst h2; simp at h
    by_cases h3 : c = '\n'
    · subst h3; simp at h
    by_cases h4 : c = '\r'
    · subst h4; simp at h
    simp [h1, h2, h3, h4]

theorem digitsToNatAux_append (acc : Nat) (xs ys : Str) :
    digitsToNatAux acc (xs ++ ys) = digitsToNatAux (digitsToNatAux acc xs) ys := by
  induction xs generalizing acc with
  | nil => rfl
  | cons c rest ih =>
    have h1 : digitsToNatAux acc ((c :: rest) ++ ys) =
        digitsToNatAux (acc * 10 + digitVal c) (rest ++ ys) := rfl
    have h2 : digitsToNatAux acc (c :: rest) =
        digitsToNatAux (acc * 10 + digitVal c) rest := rfl
    rw [h1, h2, ih]

theorem digitsToNatAux_value (acc : Nat) (s : Str) :
    digitsToNatAux acc s = acc * 10 ^ s.length + digitsToNatAux 0 s := by
  induction s generalizing acc with
  | nil =>
    have e : digitsToNatAux 0 ([] : Str) = 0 := rfl
    have e2 : digitsToNatAux acc ([] : Str) = acc := rfl
    rw [e, e2]
    simp
  | cons c rest ih =>
    have e : ∀ a : Nat, digitsToNatAux a (c :: rest) =
        digitsToNatAux (a * 10 + digitVal c) rest := fun _ => rfl
    rw [e acc, e 0, ih, ih (0 * 10 + digitVal c), List.length_cons, pow_succ]
    ring

theorem natDigitsAux_all_digits (fuel n : Nat) :
    ∀ c ∈ natDigitsAux fuel n, c.isDigit = true := by
  induction fuel generalizing n with
  | zero => intro c hc; simp [natDigitsAux] at hc
  | succ fuel ih =>
    intro c hc
    rw [natDigitsAux] at hc
    split at hc
    · simp at hc; subst hc; exact digitChar10_isDigit n
    · simp at hc
      rcases hc with hc | hc
      · exact ih _ _ hc
      · subst hc; exact digitChar10_isDigit (n % 10)

theorem natDigitsAux_ne_nil (fuel n : Nat) (h : 0 < fuel) : natDigitsAux fuel n ≠ [] := by
  match fuel, h with
  | fuel + 1, _ =>
    rw [natDigitsAux]
    split
    · simp
    · simp

theorem natDigitsAux_val (fuel n : Nat) (h : n < fuel) :
    digitsToNat (natDigitsAux fuel n) = n := by
  induction fuel generalizing n with
  | zero => omega
  | succ fuel ih =>
    rw [natDigitsAux]
    split
    · rename_i h10
      have e : digitsToNat [digitChar10 n] = 0 * 10 + digitVal (digitChar10 n) := rfl
      rw [e, digitVal_digitChar10 n h10]
      omega
    · rename_i h10
      have hlt : n / 10 < fuel := by
        have := Nat.div_lt_self (by omega : 0 < n) (by omega : 1 < 10)
        omega
      have h1 := ih _ hlt
      rw [digitsToNat] at h1 ⊢
      rw [digitsToNatAux_append, h1]
      have e : digitsToNatAux (n / 10) [digitChar10 (n % 10)] =
          n / 10 * 10 + digitVal (digitChar10 (n % 10)) := rfl
      rw [e, digitVal_digitChar10 (n % 10) (Nat.mod_lt n (by omega))]
      omega

theorem natDigits_val (n : Nat) : digitsToNat (natDigits n) = n :=
  natDigitsAux_val (n + 1) n (by omega)

theorem natDigits_all_digits (n : Nat) : ∀ c ∈ natDigits n, c.isDigit = true :=
  natDigitsAux_all_digits (n + 1) n

theorem natDigits_ne_nil (n : Nat) : natDigits n ≠ [] :=
  natDigitsAux_ne_nil (n + 1) n (by omega)

theorem parseNatAux_digits (s : Str) (acc : Nat) (h : ∀ c ∈ s, c.isDigit = true) :
    parseNatAux acc s = some (digitsToNatAux acc s) := by
  induction s generalizing acc with
  | nil => rfl
  | cons c rest ih =>
    have e1 : parseNatAux acc (c :: rest) =
        if c.isDigit then parseNatAux (acc * 10 + digitVal c) rest else none := rfl
    have e2 : digitsToNatAux acc (c :: rest) =
        digitsToNatAux (acc * 10 + digitVal c) rest := rfl
    rw [e1, e2, if_pos (h c (by simp))]
    exact ih _ (fun c' hc' => h c' (by simp [hc']))

theorem parseDigits_digits (s : Str) (hne : s ≠ []) (h : ∀ c ∈ s, c.isDigit = true) :
    parseDigits s = some (digitsToNat s) := by
  match s, hne with
  | c :: rest, _ => exact parseNatAux_digits (c :: rest) 0 h

theorem parseGoInt_digits (s : Str) (hne : s ≠ []) (h : ∀ c ∈ s, c.isDigit = true) :
    parseGoInt s = some ((digitsToNat s : Nat) : Int) := by
  match s, hne with
  | c :: rest, _ =>
    have hc := h c (by simp)
    obtain ⟨hp, hm, _, _, _, _⟩ := isDigit_ne_chars hc
    rw [parseGoInt, if_neg hp, if_neg hm, parseDigits_digits (c :: rest) (by simp) h]
    rfl

theorem parseGoInt_intToStr (z : Int) : parseGoInt (intToStr z) = some z := by
  match z with
  | Int.ofNat n =>
    rw [intToStr, parseGoInt_digits (natDigits n) (natDigits_ne_nil n) (natDigits_all_digits n),
      natDigits_val]
    rfl
  | Int.negSucc n =>
    rw [intToStr, parseGoInt, if_neg (by decide), if_pos rfl,
      parseDigits_digits (natDigits (n + 1)) (natDigits_ne_nil _) (natDigits_all_digits _),
      natDigits_val]
    simp [Int.negSucc_eq]

/-! ### String-utility lemmas -/

theorem hasPre_nil (s : Str) : hasPre s [] = true := by
  cases s <;> rfl

theorem hasPre_append_self (p r : Str) : hasPre (p ++ r) p = true := by
  induction p with
  | nil => exact hasPre_nil r
  | cons c p ih =>
    have e : hasPre ((c :: p) ++ r) (c :: p) = (decide (c = c) && hasPre (p ++ r) p) := rfl
    rw [e, ih]
    simp

theorem hasPre_exists {s p : Str} (h : hasPre s p = true) : ∃ t, s = p ++ t := by
  induction p generalizing s with
  | nil => exact ⟨s, rfl⟩
  | cons c ps ih =>
    cases s with
    | nil =>
      have e : hasPre [] (c :: ps) = false := rfl
      rw [e] at h
      exact Bool.noConfusion h
    | cons a s' =>
      have e : hasPre (a :: s') (c :: ps) = (decide (a = c) && hasPre s' ps) := rfl
      rw [e] at h
      simp only [Bool.and_eq_true, decide_eq_true_eq] at h
      obtain ⟨t, ht⟩ := ih h.2
      exact ⟨t, by simp [h.1, ht]⟩

theorem trimSuf_append (s t : Str) : trimSuf (s ++ t) t = s := by
  unfold trimSuf hasSuf
  rw [List.reverse_append, hasPre_append_self, if_pos rfl]
  simp [List.length_append, Nat.add_sub_cancel, List.take_left]

theorem hasSuf_false_of_digits {s suf : Str} (hd : ∀ c ∈ s, c.isDigit = true)
    {c0 : Char} (hc0 : c0 ∈ suf) (hc0d : c0.isDigit = false) : hasSuf s suf = false := by
  by_contra hcon
  have htrue : hasSuf s suf = true := by
    cases h : hasSuf s suf
    · exact absurd h hcon
    · rfl
  obtain ⟨t, ht⟩ := hasPre_exists htrue
  have : c0 ∈ s := by
    have h1 : c0 ∈ s.reverse := by
      rw [ht]
      exact List.mem_append_left _ (List.mem_reverse.mpr hc0)
    exact List.mem_reverse.mp h1
  rw [hd c0 this] at hc0d
  exact absurd hc0d (by decide)

theorem trimSuf_of_digits {s suf : Str} (hd : ∀ c ∈ s, c.isDigit = true)
    {c0 : Char} (hc0 : c0 ∈ suf) (hc0d : c0.isDigit = false) : trimSuf s suf = s := by
  unfold trimSuf
  rw [hasSuf_false_of_digits hd hc0 hc0d]
  simp

theorem dropWhile_eq_self_of (p : Char → Bool) (s : Str) (h : ∀ c ∈ s, p c = false) :
    s.dropWhile p = s := by
  cases s with
  | nil => rfl
  | cons a s' =>
    rw [List.dropWhile_cons, h a (by simp)]
    simp

theorem goTrimSpace_digits (s : Str) (h : ∀ c ∈ s, c.isDigit = true) : goTrimSpace s = s := by
  unfold goTrimSpace
  rw [dropWhile_eq_self_of _ s (fun c hc => (isDigit_ne_chars (h c hc)).2.2.2.2.2),
    dropWhile_eq_self_of _ s.reverse
      (fun c hc => (isDigit_ne_chars (h c (List.mem_reverse.mp hc))).2.2.2.2.2),
    List.reverse_reverse]

theorem takeWhile_all (p : Char → Bool) (s : Str) (h : ∀ c ∈ s, p c = true) :
    s.takeWhile p = s := by
  induction s with
  | nil => rfl
  | cons a s' ih =>
    rw [List.takeWhile_cons, h a (by simp)]
    simp only [if_true]
    rw [ih (fun c hc => h c (by simp [hc]))]

theorem dropWhile_all (p : Char → Bool) (s : Str) (h : ∀ c ∈ s, p c = true) :
    s.dropWhile p = [] := by
  induction s with
  | nil => rfl
  | cons a s' ih =>
    rw [List.dropWhile_cons, h a (by simp)]
    simp only [if_true]
    exact ih (fun c hc => h c (by simp [hc]))

theorem takeWhile_append_stop (p : Char → Bool) (xs : Str) (y : Char) (ys : Str)
    (hxs : ∀ c ∈ xs, p c = true) (hy : p y = false) :
    (xs ++ y :: ys).takeWhile p = xs ∧ (xs ++ y :: ys).dropWhile p = y :: ys := by
  induction xs with
  | nil =>
    constructor
    · rw [List.nil_append, List.takeWhile_cons, hy]; simp
    · rw [List.nil_append, List.dropWhile_cons, hy]; simp
  | cons a xs' ih =>
    obtain ⟨ih1, ih2⟩ := ih (fun c hc => hxs c (by simp [hc]))
    constructor
    · rw [List.cons_append, List.takeWhile_cons, hxs a (by simp)]
      simp only [if_true]
      rw [ih1]
    · rw [List.cons_append, List.dropWhile_cons, hxs a (by simp)]
      simp only [if_true]
      exact ih2

/-! ### Float formatting and parsing lemmas -/

theorem natDigits_lt10 {f : Nat} (h : f < 10) : natDigits f = [digitChar10 f] := by
  rw [natDigits, natDigitsAux, if_pos h]

theorem natDigits_two {f : Nat} (h1 : 10 ≤ f) (h2 : f < 100) :
    natDigits f = [digitChar10 (f / 10), digitChar10 (f % 10)] := by
  rw [natDigits, natDigitsAux, if_neg (by omega)]
  obtain ⟨g, rfl⟩ : ∃ g, f = g + 1 := ⟨f - 1, by omega⟩
  rw [natDigitsAux, if_pos (by omega)]
  rfl

theorem digitsToNat_pair (a b : Char) :
    digitsToNat [a, b] = (0 * 10 + digitVal a) * 10 + digitVal b := rfl

theorem padTwo_all_digits (f : Nat) : ∀ c ∈ padTwo f, c.isDigit = true := by
  intro c hc
  unfold padTwo at hc
  split at hc
  · simp at hc
    rcases hc with hc | hc
    · subst hc; decide
    · exact natDigits_all_digits f c hc
  · exact natDigits_all_digits f c hc

theorem padTwo_length {f : Nat} (h : f < 100) : (padTwo f).length = 2 := by
  unfold padTwo
  split
  · rename_i h10
    rw [natDigits_lt10 h10]
    rfl
  · rename_i h10
    rw [natDigits_two (by omega) h]
    rfl

theorem padTwo_val (f : Nat) : digitsToNat (padTwo f) = f := by
  unfold padTwo
  split
  · have e : ∀ xs : Str, digitsToNat ('0' :: xs) = digitsToNat xs := fun _ => rfl
    rw [e]
    exact natDigits_val f
  · exact natDigits_val f

theorem parseGoFloat_digit_strings (a b : Str) (ha : a ≠ [])
    (hda : ∀ c ∈ a, c.isDigit = true) (hdb : ∀ c ∈ b, c.isDigit = true) :
    parseGoFloat (a ++ '.' :: b) =
      some (mkRat (digitsToNat (a ++ b)) (10 ^ b.length)) := by
  match a, ha with
  | c :: a', _ =>
    have hc := hda c (by simp)
    obtain ⟨hp, hm, _, _, _, _⟩ := isDigit_ne_chars hc
    have esign : splitSign ((c :: a') ++ '.' :: b) = (false, (c :: a') ++ '.' :: b) := by
      have e : splitSign (c :: (a' ++ '.' :: b)) =
          if c = '+' then (false, a' ++ '.' :: b)
          else if c = '-' then (true, a' ++ '.' :: b)
          else (false, c :: (a' ++ '.' :: b)) := rfl
      rw [List.cons_append, e, if_neg hp, if_neg hm]
    obtain ⟨etake, edrop⟩ :=
      takeWhile_append_stop Char.isDigit (c :: a') '.' b hda (by decide)
    have efrac : splitFrac ('.' :: b) = (b.takeWhile Char.isDigit, b.dropWhile Char.isDigit) := by
      have e : splitFrac ('.' :: b) =
          if '.' = '.' then (b.takeWhile Char.isDigit, b.dropWhile Char.isDigit)
          else ([], '.' :: b) := rfl
      rw [e, if_pos rfl]
    rw [parseGoFloat]
    simp only [esign, etake, edrop, efrac, takeWhile_all Char.isDigit b hdb,
      dropWhile_all Char.isDigit b hdb]
    have eexp : parseExpSuffix [] = some (0 : Int) := rfl
    rw [eexp]
    simp only [List.isEmpty_nil, Bool.and_false, if_neg (by simp : ¬ (((c :: a').isEmpty && true) = true)),
      if_pos (by omega : (0 : Int) ≤ 0), if_neg (by simp : ¬ (false = true))]
    norm_num

theorem cent_cross (m : Nat) :
    0 ≤ (mkRat (m : Int) 100).num ∧
    (mkRat (m : Int) 100).num.natAbs * 100 = m * (mkRat (m : Int) 100).den := by
  set q := mkRat (m : Int) 100 with hq
  have hq0 : 0 ≤ q := by
    rw [hq, Rat.mkRat_eq_div]
    positivity
  have hnum : 0 ≤ q.num := Rat.num_nonneg.mpr hq0
  have hden0 : ((q.den : Nat) : Rat) ≠ 0 := by
    exact_mod_cast q.den_nz
  have hval : (q.num : Rat) / (q.den : Rat) = (m : Rat) / (100 : Rat) := by
    rw [Rat.num_div_den, hq, Rat.mkRat_eq_div]
    push_cast
    ring
  have hcrossZ : q.num * 100 = (m : Int) * (q.den : Int) := by
    rw [div_eq_div_iff hden0 (by norm_num : (100 : Rat) ≠ 0)] at hval
    exact_mod_cast hval
  refine ⟨hnum, ?_⟩
  have habs : ((q.num.natAbs : Int)) = q.num := Int.natAbs_of_nonneg hnum
  have : (q.num.natAbs : Int) * 100 = (m : Int) * (q.den : Int) := by rw [habs]; exact hcrossZ
  exact_mod_cast this

theorem centsOf_cent (m : Nat) : centsOf (mkRat (m : Int) 100) = m := by
  obtain ⟨hnum, hcross⟩ := cent_cross m
  set q := mkRat (m : Int) 100 with hq
  have hden : 0 < q.den := q.pos
  unfold centsOf
  have e1 : q.num.natAbs * 200 + q.den = q.den * (2 * m + 1) := by
    have : q.num.natAbs * 200 = 2 * (q.num.natAbs * 100) := by ring
    rw [this, hcross]
    ring
  have e2 : 2 * q.den = q.den * 2 := by ring
  rw [e1, e2, Nat.mul_div_mul_left _ _ hden]
  omega

theorem formatFix2_cent (m : Nat) :
    formatFix2 (mkRat (m : Int) 100) = natDigits (m / 100) ++ '.' :: padTwo (m % 100) := by
  obtain ⟨hnum, _⟩ := cent_cross m
  unfold formatFix2
  rw [centsOf_cent, if_neg (by omega)]
  simp

theorem digitsToNat_append_val (a b : Str) :
    digitsToNat (a ++ b) = digitsToNat a * 10 ^ b.length + digitsToNat b := by
  rw [digitsToNat, digitsToNatAux_append, digitsToNatAux_value]
  rfl

theorem parseGoFloat_formatFix2_cent (m : Nat) :
    parseGoFloat (formatFix2 (mkRat (m : Int) 100)) = some (mkRat (m : Int) 100) := by
  rw [formatFix2_cent,
    parseGoFloat_digit_strings (natDigits (m / 100)) (padTwo (m % 100))
      (natDigits_ne_nil _) (natDigits_all_digits _) (padTwo_all_digits _)]
  rw [digitsToNat_append_val, natDigits_val, padTwo_val,
    padTwo_length (Nat.mod_lt m (by omega))]
  norm_num
  congr 1
  omega

theorem parseGoInt_intToStr_getD (z : Int) : (parseGoInt (intToStr z)).getD 0 = z := by
  rw [parseGoInt_intToStr]
  rfl

theorem parseGoFloat_formatFix2_cent_getD (m : Nat) :
    (parseGoFloat (formatFix2 (mkRat (m : Int) 100))).getD 0 = mkRat (m : Int) 100 := by
  rw [parseGoFloat_formatFix2_cent]
  rfl

/-! ### Association-list and ordering lemmas -/

theorem mapInsert_keys_mem (k : Semester) (v : List TranscriptCourse)
    (m : List (Semester × List TranscriptCourse)) (sem : Semester) :
    sem ∈ (mapInsert k v m).map Prod.fst ↔ sem = k ∨ sem ∈ m.map Prod.fst := by
  induction m with
  | nil => simp [mapInsert]
  | cons p rest ih =>
    obtain ⟨k', v'⟩ := p
    rw [mapInsert]
    split
    · rename_i heq
      subst heq
      simp
    · simp only [List.map_cons, List.mem_cons, ih]
      tauto

theorem mapInsert_of_not_mem {k : Semester} {v : List TranscriptCourse}
    {m : List (Semester × List TranscriptCourse)} (h : k ∉ m.map Prod.fst) :
    mapInsert k v m = m ++ [(k, v)] := by
  induction m with
  | nil => rfl
  | cons p rest ih =>
    obtain ⟨k', v'⟩ := p
    simp only [List.map_cons, List.mem_cons, not_or] at h
    rw [mapInsert, if_neg (fun hc => h.1 hc.symm), ih h.2]
    rfl

theorem mem_insKey (x y : SemesterKey) (l : List SemesterKey) :
    y ∈ insKey x l ↔ y = x ∨ y ∈ l := by
  induction l with
  | nil => simp [insKey]
  | cons a l ih =>
    rw [insKey]
    split
    · simp
    · simp only [List.mem_cons, ih]
      tauto

theorem mem_sortKeys (x : SemesterKey) (l : List SemesterKey) :
    x ∈ sortKeys l ↔ x ∈ l := by
  induction l with
  | nil => simp [sortKeys]
  | cons a l ih =>
    rw [sortKeys, mem_insKey]
    simp [ih]

theorem parseSemKey_semester {sem : Semester} {k : SemesterKey}
    (h : parseSemKey sem = some k) : k.semester = sem := by
  unfold parseSemKey at h
  repeat' split at h
  all_goals simp_all
  rw [← h]

/-- Membership characterization of the ordered semester keys. -/
theorem mem_semOrder (data : List (Semester × List TranscriptCourse)) (sem : Semester) :
    (∃ k ∈ parseAndSortSemesters data, sem = k.semester) ↔
      (sem ∈ data.map Prod.fst ∧ (parseSemKey sem).isSome) := by
  unfold parseAndSortSemesters
  constructor
  · rintro ⟨k, hk, rfl⟩
    rw [mem_sortKeys, List.mem_filterMap] at hk
    obtain ⟨p, hp, hpk⟩ := hk
    have hps := parseSemKey_semester hpk
    constructor
    · rw [hps]
      exact List.mem_map.mpr ⟨p, hp, rfl⟩
    · rw [hps, hpk]
      rfl
  · rintro ⟨hmem, hsome⟩
    obtain ⟨p, hp, hp1⟩ := List.mem_map.mp hmem
    obtain ⟨k0, hk0⟩ := Option.isSome_iff_exists.mp hsome
    refine ⟨k0, ?_, (parseSemKey_semester hk0).symm⟩
    rw [mem_sortKeys, List.mem_filterMap]
    exact ⟨p, hp, by rw [hp1, hk0]⟩

/-- The chronological order on derived semester keys: ascending year, then
ascending season ordinal. -/
def semKeyLe (a b : SemesterKey) : Prop :=
  a.year < b.year ∨ (a.year = b.year ∧ a.season ≤ b.season)

theorem keyLT_true_le {a b : SemesterKey} (h : keyLT a b = true) : semKeyLe a b := by
  unfold keyLT at h
  unfold semKeyLe
  split at h
  · rename_i hy
    simp only [decide_eq_true_eq] at h
    right
    exact ⟨hy, by omega⟩
  · rename_i hy
    simp only [decide_eq_true_eq] at h
    left
    exact h

theorem keyLT_false_le {a b : SemesterKey} (h : keyLT a b = false) : semKeyLe b a := by
  unfold keyLT at h
  unfold semKeyLe
  split at h
  · rename_i hy
    simp only [decide_eq_false_iff_not] at h
    right
    exact ⟨hy.symm, by omega⟩
  · rename_i hy
    simp only [decide_eq_false_iff_not] at h
    left
    omega

theorem semKeyLe_trans {a b c : SemesterKey} (h1 : semKeyLe a b) (h2 : semKeyLe b c) :
    semKeyLe a c := by
  unfold semKeyLe at h1 h2 ⊢
  omega

theorem pairwise_insKey {x : SemesterKey} {l : List SemesterKey}
    (hl : l.Pairwise semKeyLe) : (insKey x l).Pairwise semKeyLe := by
  induction l with
  | nil => simp [insKey]
  | cons y ys ih =>
    rw [insKey]
    rw [List.pairwise_cons] at hl
    obtain ⟨hy, hys⟩ := hl
    split
    · rename_i hlt
      have hxy := keyLT_true_le hlt
      refine List.Pairwise.cons ?_ (List.Pairwise.cons hy hys)
      intro z hz
      simp only [List.mem_cons] at hz
      rcases hz with rfl | hz
      · exact hxy
      · exact semKeyLe_trans hxy (hy z hz)
    · rename_i hlt
      have hyx := keyLT_false_le (by simpa using hlt)
      refine List.Pairwise.cons ?_ (ih hys)
      intro z hz
      rw [mem_insKey] at hz
      rcases hz with rfl | hz
      · exact hyx
      · exact hy z hz

theorem pairwise_sortKeys (l : List SemesterKey) : (sortKeys l).Pairwise semKeyLe := by
  induction l with
  | nil => simp [sortKeys]
  | cons a l ih => exact pairwise_insKey ih

theorem foldl_mapInsert_keys_mem (d : List (Semester × List TranscriptCourse))
    (ks : List SemesterKey) (acc : List (Semester × List TranscriptCourse)) (sem : Semester) :
    sem ∈ ((ks.foldl (fun acc key => mapInsert key.semester (mapGet key.semester d) acc) acc).map
        Prod.fst) ↔
      sem ∈ acc.map Prod.fst ∨ ∃ k ∈ ks, sem = k.semester := by
  induction ks generalizing acc with
  | nil => simp
  | cons k ks ih =>
    rw [List.foldl_cons, ih, mapInsert_keys_mem]
    constructor
    · rintro (h | h)
      · rcases h with h | h
        · exact Or.inr ⟨k, by simp, h⟩
        · exact Or.inl h
      · obtain ⟨k', hk', hs⟩ := h
        exact Or.inr ⟨k', by simp [hk'], hs⟩
    · rintro (h | h)
      · exact Or.inl (Or.inr h)
      · obtain ⟨k', hk', hs⟩ := h
        rcases List.mem_cons.mp hk' with rfl | hk'
        · exact Or.inl (Or.inl hs)
        · exact Or.inr ⟨k', hk', hs⟩

/-- Key membership in the semester map stored by `parseTranscript`. -/
theorem ptStored_keys (toks : List Str) (sem : Semester) :
    sem ∈ (ptStored toks).map Prod.fst ↔
      sem ∈ (ptFinal toks).semesterData.map Prod.fst ∧ (parseSemKey sem).isSome := by
  simp only [ptStored]
  rw [foldl_mapInsert_keys_mem]
  simp only [List.map_nil, List.not_mem_nil, false_or]
  exact mem_semOrder _ sem

theorem deserSem_serSem (p : Semester × List TranscriptCourse)
    (h1 : ∃ m : Nat, p.1.CGPA = mkRat (m : Int) 100)
    (h2 : ∃ m : Nat, p.1.SGPA = mkRat (m : Int) 100) :
    deserSem (serSem p) = p.1 := by
  obtain ⟨m1, hm1⟩ := h1
  obtain ⟨m2, hm2⟩ := h2
  obtain ⟨⟨nm, che, cg, sg⟩, cs⟩ := p
  simp only at hm1 hm2
  subst hm1
  subst hm2
  simp [deserSem, serSem, parseGoInt_intToStr, parseGoFloat_formatFix2_cent]

theorem toTranscript_fold (l : List (Semester × List TranscriptCourse)) :
    ∀ acc : List (Semester × List TranscriptCourse),
    (∀ p ∈ l, deserSem (serSem p) = p.1) →
    (l.map Prod.fst).Nodup →
    (∀ p ∈ l, p.1 ∉ acc.map Prod.fst) →
    ((l.map serSem).foldl (fun acc s => mapInsert (deserSem s) s.Courses acc) acc) = acc ++ l := by
  induction l with
  | nil => intro acc _ _ _; simp
  | cons p rest ih =>
    intro acc hgood hnodup hdisj
    rw [List.map_cons, List.foldl_cons]
    have h1 : deserSem (serSem p) = p.1 := hgood p (by simp)
    have h2 : (serSem p).Courses = p.2 := rfl
    rw [h1, h2, mapInsert_of_not_mem (hdisj p (by simp))]
    rw [List.map_cons, List.nodup_cons] at hnodup
    have hstep : ∀ q ∈ rest, q.1 ∉ (acc ++ [(p.1, p.2)]).map Prod.fst := by
      intro q hq
      simp only [List.map_append, List.mem_append, List.map_cons, List.map_nil,
        List.mem_singleton, not_or]
      refine ⟨hdisj q (by simp [hq]), ?_⟩
      intro hc
      exact hnodup.1 (hc ▸ List.mem_map.mpr ⟨q, hq, rfl⟩)
    rw [ih (acc ++ [(p.1, p.2)]) (fun q hq => hgood q (by simp [hq])) hnodup.2 hstep]
    simp

theorem parseSpanData_semester (t : Transcript) (spans : List Str) :
    (parseSpanData t spans).Semester = t.Semester := by
  induction spans generalizing t with
  | nil => rfl
  | cons s0 rest ih =>
    cases rest with
    | nil => rfl
    | cons nxt rest2 =>
      simp only [parseSpanData]
      rw [ih]
      repeat' split
      all_goals rfl

theorem trimSuf_of_hasSuf_false {s b : Str} (h : hasSuf s b = false) : trimSuf s b = s := by
  unfold trimSuf
  rw [h]
  simp

theorem hasSuf_append_ne {s a b : Str} (hlen : a.length = b.length) (hne : a ≠ b) :
    hasSuf (s ++ a) b = false := by
  by_contra hcon
  have htrue : hasSuf (s ++ a) b = true := by
    cases hx : hasSuf (s ++ a) b
    · exact absurd hx hcon
    · rfl
  obtain ⟨t, ht⟩ := hasPre_exists htrue
  rw [List.reverse_append] at ht
  have h1 : (a.reverse ++ s.reverse).take a.reverse.length = a.reverse :=
    List.take_left _ _
  rw [ht] at h1
  have hlen2 : a.reverse.length = b.reverse.length := by simp [hlen]
  rw [hlen2, List.take_left] at h1
  apply hne
  have := congrArg List.reverse h1
  simpa using this.symm

/-! ### Concrete fixtures -/

/-- A course whose attendance aggregates were populated by an earlier
successful fetch. -/
def fixtureCourse : Course :=
  { ID := "42".data, Code := "CS101".data, Title := "Intro".data, CreditHours := "3".data
    CourseType := "Core".data, FacultyName := [], FacultyEmail := [], Mode := []
    Section := [], Semester := [], Room := [], Days := [], StartTime := [], EndTime := []
    TotalLectures := 7, AttendancePercentage := 50
    Attendance := [{ LectureNumber := 1, LectureDate := [], Attendance := true, Faculty := [] }] }

/-- A transcript token stream whose only semester heading, `Fall`, fails the
two-field parse. -/
def fixtureToksC1 : List Str :=
  ["Fall".data, "CS101".data, "Intro".data, "3".data, "A".data, "3.5".data]

/-- The semester accumulated from `fixtureToksC1`. -/
def fixtureSemFall : Semester :=
  { Name := "Fall".data, CreditHoursEarned := 0, CGPA := 0, SGPA := 0 }

/-- The course row parsed from `fixtureToksC1`. -/
def fixtureTC : TranscriptCourse :=
  { Code := "CS101".data, Title := "Intro".data, CreditHours := 3, Grade := "A".data
    GradePoint := mkRat 35 10 }

/-- A semester key fixture used for the ordering example. -/
def fixtureSemOf (nm : String) : Semester :=
  { Name := nm.data, CreditHoursEarned := 0, CGPA := 0, SGPA := 0 }

/-- The semester map of the C7 ordering example. -/
def fixtureSemData : List (Semester × List TranscriptCourse) :=
  [(fixtureSemOf "Fall 2021", []), (fixtureSemOf "Spring 2021", []),
   (fixtureSemOf "Summer 2021", []), (fixtureSemOf "Fall 2020", [])]

/-- A semester whose CGPA carries three decimal places. -/
def fixtureSemBad : Semester :=
  { Name := "Fall 2021".data, CreditHoursEarned := 15,
    CGPA := mkRat 3456 1000, SGPA := mkRat 3 1 }

/-- A transcript whose CGPA carries three decimal places. -/
def fixtureTranscriptBad : Transcript :=
  { Semester := [(fixtureSemBad, [fixtureTC])],
    CreditHoursEarned := "15".data, CreditHoursForGPA := "15".data,
    TotalGradePoints := "51.8".data, TotalCGPA := "3.46".data }

/-- A semester whose GPA figures are exact hundredths. -/
def fixtureSemGood : Semester :=
  { Name := "Fall 2021".data, CreditHoursEarned := 15,
    CGPA := mkRat 346 100, SGPA := mkRat 375 100 }

/-- A transcript whose GPA figures are exact hundredths. -/
def fixtureTranscriptGood : Transcript :=
  { Semester := [(fixtureSemGood, [fixtureTC])],
    CreditHoursEarned := "15".data, CreditHoursForGPA := "15".data,
    TotalGradePoints := "51.8".data, TotalCGPA := "3.46".data }

/-! ### Claim theorems -/

/-- C1 (counterexample): on this token streament the semester named `Fall`
(whose heading fails the two-field/season parse) is accumulated with its
course list during the pass, its heading fails `parseSemKey`, and yet the
semester map stored on the Transcript is empty — the claim that such
semesters remain in the stored map is false. -/
theorem C1_counterexample :
    (ptFinal fixtureToksC1).semesterData = [(fixtureSemFall, [fixtureTC])] ∧
    parseSemKey fixtureSemFall = none ∧
    ptStored fixtureToksC1 = [] := by
  refine ⟨?_, ?_, ?_⟩ <;> decide

/-- C1 (amended): a semester key is in the map stored on the Transcript iff
it was accumulated during the pass AND its heading passes the
two-field/season parse; semesters with unparseable headings are dropped from
both the ordered view and the stored map (they survive only in the local
accumulation map, which is discarded when the parser returns). -/
theorem C1_amended_storage (toks : List Str) (sem : Semester) :
    sem ∈ (ptStored toks).map Prod.fst ↔
      sem ∈ (ptFinal toks).semesterData.map Prod.fst ∧ (parseSemKey sem).isSome :=
  ptStored_keys toks sem

/-- C4 (counterexample): on a 1-token attendance stream the parse succeeds
and empties the attendance list, but `TotalLectures` and
`AttendancePercentage` keep their previous values (7 and 50) instead of
being reset to 0 as the claim states. -/
theorem C4_counterexample :
    (applyAttendance fixtureCourse ["a".data]).Attendance = [] ∧
    (applyAttendance fixtureCourse ["a".data]).TotalLectures = 7 ∧
    (applyAttendance fixtureCourse ["a".data]).AttendancePercentage = 50 ∧
    ¬ ((applyAttendance fixtureCourse ["a".data]).TotalLectures = 0 ∧
       (applyAttendance fixtureCourse ["a".data]).AttendancePercentage = 0) := by
  refine ⟨?_, ?_, ?_, ?_⟩ <;> decide

/-- C4 (amended): for every attendance token stream with fewer than 6
tokens, the parse succeeds and leaves the course unchanged except that its
attendance list is emptied; in particular `TotalLectures` and
`AttendancePercentage` keep their prior values (0 only for a course never
fetched before). -/
theorem C4_amended (c : Course) (toks : List Str) (h : toks.length < 6) :
    applyAttendance c toks = { c with Attendance := [] } := by
  unfold applyAttendance
  rw [if_pos h]

/-- C4 (witness): the amended theorem applied to the concrete course and the
1-token stream. -/
theorem C4_witness :
    ((["a".data] : List Str).length < 6) ∧
      applyAttendance fixtureCourse ["a".data] = { fixtureCourse with Attendance := [] } :=
  ⟨by decide, C4_amended fixtureCourse ["a".data] (by decide)⟩

/-- C10: `parseTranscript` writes only the semester map: the four cumulative
string totals of the Transcript are unchanged by it (its running totals are
discarded locals), and conversely the span scraper `parseSpanData`, which
populates those totals, never touches the semester map. -/
theorem C10_frame (t : Transcript) (toks spans : List Str) :
    (parseTranscriptModel t toks).CreditHoursEarned = t.CreditHoursEarned ∧
    (parseTranscriptModel t toks).CreditHoursForGPA = t.CreditHoursForGPA ∧
    (parseTranscriptModel t toks).TotalGradePoints = t.TotalGradePoints ∧
    (parseTranscriptModel t toks).TotalCGPA = t.TotalCGPA ∧
    (parseSpanData t spans).Semester = t.Semester :=
  ⟨rfl, rfl, rfl, rfl, parseSpanData_semester t spans⟩

/-- C7: `parseAndSortSemesters` keeps exactly the semester keys whose name
splits into at least two whitespace fields with an integer second field and
a season first field (`parseSemKey` succeeds), orders them ascending by
(year, season ordinal), and on the concrete input
{Fall 2021, Spring 2021, Summer 2021, Fall 2020} produces the order
[Fall 2020, Spring 2021, Summer 2021, Fall 2021]. -/
theorem C7_semester_ordering :
    ((parseAndSortSemesters fixtureSemData).map (fun k => k.semester.Name) =
      ["Fall 2020".data, "Spring 2021".data, "Summer 2021".data, "Fall 2021".data]) ∧
    (∀ (data : List (Semester × List TranscriptCourse)) (sem : Semester),
      (∃ k ∈ parseAndSortSemesters data, sem = k.semester) ↔
        (sem ∈ data.map Prod.fst ∧ (parseSemKey sem).isSome)) ∧
    (∀ data : List (Semester × List TranscriptCourse),
      (parseAndSortSemesters data).Pairwise semKeyLe) :=
  ⟨by decide, mem_semOrder, fun _ => pairwise_sortKeys _⟩

/-- C9: for every all-digit numeric prefix, the two percentage-trailer
spellings `… % Attandence` and `… % Attendance` parse to the same integer
value (the numeric prefix itself); a percentage trailer whose remainder does
not parse as an integer yields 0, as does a total-lectures trailer that
fails integer parsing after the label strip. -/
theorem C9_percentage_trailers (s : Str) (hne : s ≠ []) (hdig : ∀ c ∈ s, c.isDigit = true) :
    (attPct (s ++ (" % Attandence".data)) = ((digitsToNat s : Nat) : Int) ∧
     attPct (s ++ (" % Attendance".data)) = ((digitsToNat s : Nat) : Int)) ∧
    (∀ tok : Str,
        parseGoInt (goTrimSpace (trimSuf (trimSuf tok (" % Attandence".data))
          (" % Attendance".data))) = none → attPct tok = 0) ∧
    (∀ tok : Str, parseGoInt (trimPre tok ("Total Lectures : ".data)) = none →
        totalLecturesOf tok = 0) := by
  refine ⟨⟨?_, ?_⟩, ?_, ?_⟩
  · unfold attPct
    rw [trimSuf_append,
      trimSuf_of_digits hdig (show (' ') ∈ (" % Attendance".data) by decide) (by decide),
      goTrimSpace_digits s hdig, parseGoInt_digits s hne hdig]
  · unfold attPct
    rw [trimSuf_of_hasSuf_false (hasSuf_append_ne (by decide) (by decide)),
      trimSuf_append, goTrimSpace_digits s hdig, parseGoInt_digits s hne hdig]
  · intro tok h
    unfold attPct
    rw [h]
  · intro tok h
    unfold totalLecturesOf
    rw [h]

/-- C9 (witness): both spellings of the trailer on the prefix `87` parse to
the value 87. -/
theorem C9_witness :
    attPct ("87".data ++ (" % Attandence".data)) = ((digitsToNat "87".data : Nat) : Int) ∧
    attPct ("87".data ++ (" % Attendance".data)) = ((digitsToNat "87".data : Nat) : Int) :=
  ⟨(C9_percentage_trailers ("87".data) (by decide) (by decide)).1.1,
   (C9_percentage_trailers ("87".data) (by decide) (by decide)).1.2⟩

/-- C8 (counterexample): on a transcript whose semester CGPA is 3.456, the
cache round trip `ToTranscript ∘ ToSerializable` does not reproduce the
semester set: the 2-decimal formatting collapses the CGPA to 3.46, so the
claim that the round trip is the identity for every Transcript is false. -/
theorem C8_counterexample :
    fixtureTranscriptBad.ToSerializable.ToTranscript ≠ fixtureTranscriptBad ∧
    (fixtureTranscriptBad.ToSerializable.ToTranscript).Semester.map (fun p => p.1.CGPA) =
      [mkRat 346 100] ∧
    fixtureTranscriptBad.Semester.map (fun p => p.1.CGPA) = [mkRat 3456 1000] := by
  refine ⟨?_, ?_, ?_⟩ <;> decide

/-- C8 (amended): the round trip reproduces an identical semester set —
same keys mapped to the same course lists and the same four string totals —
for every Transcript whose semester CGPA and SGPA values are non-negative
exact hundredths (which is what the 2-decimal cache format can represent)
and whose association list satisfies a Go map's distinct-key invariant;
moreover credit hours serialize as exactly round-tripping integer strings
and every formatted GPA string carries exactly two decimal digits. -/
theorem C8_roundtrip_amended (t : Transcript)
    (hcent : ∀ p ∈ t.Semester,
      (∃ m : Nat, p.1.CGPA = mkRat (m : Int) 100) ∧
      (∃ m : Nat, p.1.SGPA = mkRat (m : Int) 100))
    (hkeys : (t.Semester.map Prod.fst).Nodup) :
    t.ToSerializable.ToTranscript = t ∧
    (∀ n : Int, parseGoInt (intToStr n) = some n) ∧
    (∀ q : Rat, ∃ pre fr : Str, formatFix2 q = pre ++ '.' :: fr ∧ fr.length = 2 ∧
        ∀ c ∈ fr, c.isDigit = true) := by
  refine ⟨?_, parseGoInt_intToStr, ?_⟩
  · obtain ⟨sems, ta, tb, tc, td⟩ := t
    simp only [Transcript.ToSerializable, SerializableTranscript.ToTranscript]
    simp only at hcent hkeys
    have hfold := toTranscript_fold sems []
      (fun p hp => deserSem_serSem p (hcent p hp).1 (hcent p hp).2)
      hkeys (fun p _ => by simp)
    rw [hfold]
    simp
  · intro q
    refine ⟨(if q.num < 0 then ['-'] else []) ++ natDigits (centsOf q / 100),
      padTwo (centsOf q % 100), ?_, padTwo_length (Nat.mod_lt _ (by omega)),
      padTwo_all_digits _⟩
    simp only [formatFix2, List.append_assoc]

/-- C8 (witness): the amended round trip applied to a transcript whose GPA
figures are exact hundredths. -/
theorem C8_witness :
    fixtureTranscriptGood.ToSerializable.ToTranscript = fixtureTranscriptGood :=
  (C8_roundtrip_amended fixtureTranscriptGood
    (by
      intro p hp
      simp only [fixtureTranscriptGood, List.mem_singleton] at hp
      subst hp
      exact ⟨⟨346, by decide⟩, ⟨375, by decide⟩⟩)
    (by decide)).1

/-- C6: the login model returns InvalidCredentials in exactly two cases —
an empty student id or password (before any network step), or a
transport-successful sequence whose accumulated cookie set has fewer than 3
cookies — and a transport error at whichever step is reached yields
NetworkIssue instead; none of these paths retries (the model is a single
straight-line attempt). -/
theorem C6_login_errors (env : LoginEnv) (creds : Credentials) :
    ((loginAPI env creds).2.1 = ErrorCode.ErrInvalidCredentials ↔
      ((creds.StudentID = [] ∨ creds.Password = []) ∨
       (env.getErr = none ∧ env.newReqErr = none ∧ env.postErr = none ∧
        env.cookies.length < 3))) ∧
    (¬ (creds.StudentID = [] ∨ creds.Password = []) →
      ((∀ e, env.getErr = some e → (loginAPI env creds).2.1 = ErrorCode.ErrNetworkIssue) ∧
       (env.getErr = none → ∀ e, env.newReqErr = some e →
          (loginAPI env creds).2.1 = ErrorCode.ErrNetworkIssue) ∧
       (env.getErr = none → env.newReqErr = none → ∀ e, env.postErr = some e →
          (loginAPI env creds).2.1 = ErrorCode.ErrNetworkIssue))) := by
  obtain ⟨g, nr, p, cks, ud⟩ := env
  by_cases hcred : creds.StudentID = [] ∨ creds.Password = []
  · refine ⟨?_, fun h => absurd hcred h⟩
    simp [loginAPI, hcred]
  · refine ⟨?_, fun _ => ⟨?_, ?_, ?_⟩⟩
    · cases g with
      | some e => simp [loginAPI, hcred]
      | none =>
        cases nr with
        | some e => simp [loginAPI, hcred]
        | none =>
          cases p with
          | some e => simp [loginAPI, hcred]
          | none =>
            by_cases hc : cks.length < 3
            · simp [loginAPI, hcred, hc]
            · cases ud <;> simp [loginAPI, hcred, hc]
    · rintro e rfl
      simp [loginAPI, hcred]
    · rintro rfl e rfl
      simp [loginAPI, hcred]
    · rintro rfl rfl e rfl
      simp [loginAPI, hcred]

/-- C6 (witness): with non-empty credentials, all transport steps
succeeding, and only 2 cookies accumulated, the login model returns
InvalidCredentials. -/
theorem C6_witness :
    (loginAPI
      { getErr := none, newReqErr := none, postErr := none,
        cookies := ["a".data, "b".data], userDataErr := none }
      { StudentID := "S2023".data, Password := "pw".data }).2.1 =
      ErrorCode.ErrInvalidCredentials :=
  (C6_login_errors _ _).1.mpr (Or.inr ⟨rfl, rfl, rfl, by decide⟩)

/-! ### Retry-loop lemmas -/

theorem attRetryAux_exhaust (att : Nat → AttAttempt) (ce : Bool) (c : Course) :
    ∀ rem i,
      (∀ j, i ≤ j → j < i + rem →
        ∃ n toks, att j = .finalBody n toks ∧ n < sizeThreshold) →
      attRetryAux att ce c rem i = .exhausted maxRetries := by
  intro rem
  induction rem with
  | zero => intro i _; rfl
  | succ rem ih =>
    intro i h
    obtain ⟨n, toks, hj, hn⟩ := h i (by omega) (by omega)
    rw [attRetryAux]
    simp only [hj, hn, if_true]
    exact ih (i + 1) (fun j h1 h2 => h j (by omega) (by omega))

theorem attRetryAux_success (att : Nat → AttAttempt) (c : Course) :
    ∀ rem i k n toks, i + rem = maxRetries → i ≤ k → k < maxRetries →
      (∀ j, i ≤ j → j < k → att j = .earlyFail ∨
        ∃ n' toks', att j = .finalBody n' toks' ∧ n' < sizeThreshold) →
      att k = .finalBody n toks → sizeThreshold ≤ n →
      attRetryAux att true c rem i = .success (k + 1) (applyAttendance c toks) := by
  intro rem
  induction rem with
  | zero =>
    intro i k n toks hrem hik hk _ _ _
    omega
  | succ rem ih =>
    intro i k n toks hrem hik hk hfail hk2 hn
    by_cases hek : i = k
    · subst hek
      have hns : ¬ n < sizeThreshold := by omega
      rw [attRetryAux]
      simp [hk2, hns]
    · rcases hfail i (by omega) (by omega) with hf | ⟨n', toks', hf, hn'⟩
      · rw [attRetryAux]
        simp only [hf]
        exact ih (i + 1) k n toks (by omega) (by omega) hk
          (fun j h1 h2 => hfail j (by omega) h2) hk2 hn
      · rw [attRetryAux]
        simp only [hf, hn', if_true]
        exact ih (i + 1) k n toks (by omega) (by omega) hk
          (fun j h1 h2 => hfail j (by omega) h2) hk2 hn

theorem trRetryAux_exhaust (tr : Nat → TrAttempt) (t : Transcript)
    (sz : Nat → Nat) (sp tk : Nat → List Str) :
    ∀ rem i le j9, j9 = i + rem - 1 → 0 < rem →
      (∀ j, i ≤ j → j < i + rem →
        tr j = .finalBody (sz j) (sp j) (tk j) ∧ sz j < sizeThreshold) →
      trRetryAux tr t rem le i = .exhausted maxRetries (some (.tooSmall (sz j9))) := by
  intro rem
  induction rem with
  | zero => intro i le j9 _ h0 _; omega
  | succ rem ih =>
    intro i le j9 hj9 _ h
    obtain ⟨hj, hn⟩ := h i (by omega) (by omega)
    rw [trRetryAux]
    simp only [hj, hn, if_true]
    cases rem with
    | zero =>
      have hj9' : j9 = i := by omega
      subst hj9'
      rfl
    | succ rem' =>
      exact ih (i + 1) (some (.tooSmall (sz i))) j9 (by omega) (by omega)
        (fun j h1 h2 => h j (by omega) (by omega))

theorem trRetryAux_success (tr : Nat → TrAttempt) (t : Transcript) :
    ∀ rem i k n spans toks le, i + rem = maxRetries → i ≤ k → k < maxRetries →
      (∀ j, i ≤ j → j < k → (∃ e, tr j = .stepErr e) ∨
        ∃ n' sp' tk', tr j = .finalBody n' sp' tk' ∧ (n' < sizeThreshold ∨ tk' = [])) →
      tr k = .finalBody n spans toks → sizeThreshold ≤ n → toks ≠ [] →
      trRetryAux tr t rem le i =
        .success (k + 1) (parseTranscriptModel (parseSpanData t spans) toks) := by
  intro rem
  induction rem with
  | zero =>
    intro i k n spans toks le hrem hik hk _ _ _ _
    omega
  | succ rem ih =>
    intro i k n spans toks le hrem hik hk hfail hk2 hn hne
    by_cases hek : i = k
    · subst hek
      have hns : ¬ n < sizeThreshold := by omega
      rw [trRetryAux]
      simp [hk2, hns, List.isEmpty_iff, hne]
    · rcases hfail i (by omega) (by omega) with ⟨e, hf⟩ | ⟨n', sp', tk', hf, hcase⟩
      · rw [trRetryAux]
        simp only [hf]
        exact ih (i + 1) k n spans toks (some e) (by omega) (by omega) hk
          (fun j h1 h2 => hfail j (by omega) h2) hk2 hn hne
      · by_cases hsm : n' < sizeThreshold
        · rw [trRetryAux]
          simp only [hf, hsm, if_true]
          exact ih (i + 1) k n spans toks _ (by omega) (by omega) hk
            (fun j h1 h2 => hfail j (by omega) h2) hk2 hn hne
        · have hempty : tk' = [] := by
            rcases hcase with hcase | hcase
            · exact absurd hcase hsm
            · exact hcase
          rw [trRetryAux]
          simp only [hf, hsm, if_false, hempty, List.isEmpty_nil, if_true]
          exact ih (i + 1) k n spans toks _ (by omega) (by omega) hk
            (fun j h1 h2 => hfail j (by omega) h2) hk2 hn hne

/-- C5: for both report fetchers, when every attempt's final response body
is under the 30000-byte threshold, exactly 10 attempts are made and the
result is the Exhausted error carrying the attempt count (for the
transcript, wrapping the last underlying `response too small` error); and
any attempt that succeeds short-circuits the loop, returning after exactly
that many attempts. -/
theorem C5_retry_budget :
    (∀ (att : Nat → AttAttempt) (ce : Bool) (c : Course),
      (∀ j, j < 10 → ∃ n toks, att j = .finalBody n toks ∧ n < sizeThreshold) →
      fetchCourseAttendanceModel att ce c = .exhausted 10) ∧
    (∀ (tr : Nat → TrAttempt) (t : Transcript) (sz : Nat → Nat) (sp tk : Nat → List Str),
      (∀ j, j < 10 → tr j = .finalBody (sz j) (sp j) (tk j) ∧ sz j < sizeThreshold) →
      fetchTranscriptModel tr t = .exhausted 10 (some (.tooSmall (sz 9)))) ∧
    (∀ (att : Nat → AttAttempt) (c : Course) (k n : Nat) (toks : List Str),
      k < 10 →
      (∀ j, j < k → att j = .earlyFail ∨
        ∃ n' toks', att j = .finalBody n' toks' ∧ n' < sizeThreshold) →
      att k = .finalBody n toks → sizeThreshold ≤ n →
      fetchCourseAttendanceModel att true c = .success (k + 1) (applyAttendance c toks)) ∧
    (∀ (tr : Nat → TrAttempt) (t : Transcript) (k n : Nat) (spans toks : List Str),
      k < 10 →
      (∀ j, j < k → (∃ e, tr j = .stepErr e) ∨
        ∃ n' sp' tk', tr j = .finalBody n' sp' tk' ∧ (n' < sizeThreshold ∨ tk' = [])) →
      tr k = .finalBody n spans toks → sizeThreshold ≤ n → toks ≠ [] →
      fetchTranscriptModel tr t =
        .success (k + 1) (parseTranscriptModel (parseSpanData t spans) toks)) := by
  have hmax : maxRetries = 10 := rfl
  refine ⟨?_, ?_, ?_, ?_⟩
  · intro att ce c h
    exact attRetryAux_exhaust att ce c maxRetries 0
      (fun j h1 h2 => h j (by rw [hmax] at h2; omega))
  · intro tr t sz sp tk h
    exact trRetryAux_exhaust tr t sz sp tk maxRetries 0 none 9
      (by rw [hmax]) (by rw [hmax]; omega)
      (fun j h1 h2 => h j (by rw [hmax] at h2; omega))
  · intro att c k n toks hk hfail hk2 hn
    exact attRetryAux_success att c maxRetries 0 k n toks (by omega) (by omega)
      (by rw [hmax]; omega) (fun j h1 h2 => hfail j h2) hk2 hn
  · intro tr t k n spans toks hk hfail hk2 hn hne
    exact trRetryAux_success tr t maxRetries 0 k n spans toks none (by omega) (by omega)
      (by rw [hmax]; omega) (fun j h1 h2 => hfail j h2) hk2 hn hne

/-- C5 (witness): the retry theorem at concrete oracles — an all-undersized
oracle exhausts both fetchers after 10 attempts, and a first-attempt success
returns after 1 attempt. -/
theorem C5_witness :
    fetchCourseAttendanceModel (fun _ => .finalBody 0 []) true fixtureCourse =
      .exhausted 10 ∧
    fetchTranscriptModel (fun _ => .finalBody 0 [] []) fixtureTranscriptBad =
      .exhausted 10 (some (.tooSmall 0)) ∧
    fetchCourseAttendanceModel (fun _ => .finalBody 30000 ["a".data]) true fixtureCourse =
      .success 1 (applyAttendance fixtureCourse ["a".data]) ∧
    fetchTranscriptModel (fun _ => .finalBody 30000 [] ["x".data]) fixtureTranscriptBad =
      .success 1
        (parseTranscriptModel (parseSpanData fixtureTranscriptBad []) ["x".data]) :=
  ⟨C5_retry_budget.1 _ true fixtureCourse
      (fun j _ => ⟨0, [], rfl, by simp [sizeThreshold]⟩),
   C5_retry_budget.2.1 _ fixtureTranscriptBad (fun _ => 0) (fun _ => []) (fun _ => [])
      (fun j _ => ⟨rfl, by simp [sizeThreshold]⟩),
   C5_retry_budget.2.2.1 _ fixtureCourse 0 30000 ["a".data] (by omega)
      (fun j hj => absurd hj (by omega)) rfl (by simp [sizeThreshold]),
   C5_retry_budget.2.2.2 _ fixtureTranscriptBad 0 30000 [] ["x".data] (by omega)
      (fun j hj => absurd hj (by omega)) rfl (by simp [sizeThreshold]) (by simp)⟩

/-- C3: when the dispatch reaches a course row (the token is no header,
season, or label line and the credit-hours token parses) whose grade is in
the zero-point set {P, I, W, SA, S, NC, F}, the emitted TranscriptCourse has
gradePoint exactly 0 and exactly 4 tokens are consumed regardless of what
token follows; when additionally the grade is F and the title carries no
"[R]" marker, the row's credit hours are added to the GPA-credit-hours
running total. -/
theorem C3_zero_point_grades (fuel : Nat) (tok t1 t2 t3 : Str) (rest : List Str)
    (st : PTState) (ch : Int)
    (hHeader : isHeaderLiteral (goTrimSpace tok) = false)
    (hSeason : containsSeason (goTrimSpace tok) = false)
    (hCr : containsSub (goTrimSpace tok) ("Cr. Hrs. Earned:".data) = false)
    (hSgpa : containsSub (goTrimSpace tok) ("SGPA:".data) = false)
    (hCH : parseGoInt (goTrimSpace t2) = some ch)
    (hZero : isZeroGradePointGrade (goTrimSpace t3) = true) :
    ptLoopAux (fuel + 1) (tok :: t1 :: t2 :: t3 :: rest) st =
      ptLoopAux fuel rest
        { st with
          totalCreditHoursForGrade := st.totalCreditHoursForGrade +
            (if goTrimSpace t3 = ("F".data) ∧
                ¬ containsSub (goTrimSpace t1) ("[R]".data) then ch else 0)
          courses := st.courses ++
            [{ Code := goTrimSpace tok, Title := goTrimSpace t1, CreditHours := ch,
               Grade := goTrimSpace t3, GradePoint := (0 : Rat) }] } := by
  rw [ptLoopAux]
  simp only [hHeader, hSeason, hCr, hSgpa, Bool.false_eq_true, if_false, hCH, hZero, if_true]
  by_cases hF : goTrimSpace t3 = ("F".data) ∧ ¬ containsSub (goTrimSpace t1) ("[R]".data)
  · rw [if_pos hF, if_pos hF]
  · rw [if_neg hF, if_neg hF]
    simp

/-- C3 (witness): the zero-grade row step at a concrete F row without the
repeat marker. -/
theorem C3_witness :
    ptLoopAux 6 ["CS110".data, "Calc".data, "3".data, "F".data, "Next".data] ptInit =
      ptLoopAux 5 ["Next".data]
        { ptInit with
          totalCreditHoursForGrade := ptInit.totalCreditHoursForGrade +
            (if goTrimSpace ("F".data) = ("F".data) ∧
                ¬ containsSub (goTrimSpace ("Calc".data)) ("[R]".data) then 3 else 0)
          courses := ptInit.courses ++
            [{ Code := goTrimSpace ("CS110".data), Title := goTrimSpace ("Calc".data),
               CreditHours := 3, Grade := goTrimSpace ("F".data), GradePoint := (0 : Rat) }] } :=
  C3_zero_point_grades 5 ("CS110".data) ("Calc".data) ("3".data) ("F".data)
    (["Next".data]) ptInit 3 (by decide) (by decide) (by decide) (by decide)
    (by decide) (by decide)

set_option maxHeartbeats 1600000 in
/-- C2: for a dispatched course row whose grade is not in the zero-point
set: if the lookahead token exists, parses as a float and matches no
header/semester/label literal, the emitted gradePoint is that float and 5
tokens are consumed; otherwise (parse failure or a literal match, or no
lookahead token at all) the gradePoint is 0 and exactly 4 tokens are
consumed, leaving the lookahead token for the next dispatch cycle. -/
theorem C2_gradepoint_lookahead (fuel : Nat) (tok t1 t2 t3 : Str) (st : PTState) (ch : Int)
    (hHeader : isHeaderLiteral (goTrimSpace tok) = false)
    (hSeason : containsSeason (goTrimSpace tok) = false)
    (hCr : containsSub (goTrimSpace tok) ("Cr. Hrs. Earned:".data) = false)
    (hSgpa : containsSub (goTrimSpace tok) ("SGPA:".data) = false)
    (hCH : parseGoInt (goTrimSpace t2) = some ch)
    (hNZ : isZeroGradePointGrade (goTrimSpace t3) = false) :
    (∀ (t4 : Str) (rest4 : List Str) (gp : Rat),
      parseGoFloat (goTrimSpace t4) = some gp →
      gpLookaheadExcluded (goTrimSpace t4) = false →
      ptLoopAux (fuel + 1) (tok :: t1 :: t2 :: t3 :: t4 :: rest4) st =
        ptLoopAux fuel rest4
          { st with
            totalCreditHoursForGrade := st.totalCreditHoursForGrade +
              (if gp ≠ (0 : Rat) then ch else 0)
            courses := st.courses ++
              [{ Code := goTrimSpace tok, Title := goTrimSpace t1, CreditHours := ch,
                 Grade := goTrimSpace t3, GradePoint := gp }]
            totalGradePoints := if (0 : Rat) < gp then qadd st.totalGradePoints gp
              else st.totalGradePoints }) ∧
    (∀ (t4 : Str) (rest4 : List Str),
      (parseGoFloat (goTrimSpace t4) = none ∨
        gpLookaheadExcluded (goTrimSpace t4) = true) →
      ptLoopAux (fuel + 1) (tok :: t1 :: t2 :: t3 :: t4 :: rest4) st =
        ptLoopAux fuel (t4 :: rest4)
          { st with courses := st.courses ++
              [{ Code := goTrimSpace tok, Title := goTrimSpace t1, CreditHours := ch,
                 Grade := goTrimSpace t3, GradePoint := (0 : Rat) }] }) ∧
    (ptLoopAux (fuel + 1) [tok, t1, t2, t3] st =
      ptLoopAux fuel []
        { st with courses := st.courses ++
            [{ Code := goTrimSpace tok, Title := goTrimSpace t1, CreditHours := ch,
               Grade := goTrimSpace t3, GradePoint := (0 : Rat) }] }) := by
  refine ⟨?_, ?_, ?_⟩
  · intro t4 rest4 gp hGP hEx
    rw [ptLoopAux]
    simp only [hHeader, hSeason, hCr, hSgpa, Bool.false_eq_true, if_false, hCH, hNZ,
      hGP, hEx, if_true]
    by_cases h1 : gp ≠ (0 : Rat) <;> by_cases h2 : (0 : Rat) < gp <;>
      simp [h1, h2]
  · intro t4 rest4 hfail
    rw [ptLoopAux]
    rcases hfail with hnone | hex
    · simp only [hHeader, hSeason, hCr, hSgpa, Bool.false_eq_true, if_false, hCH, hNZ,
        hnone]
    · cases hsome : parseGoFloat (goTrimSpace t4) with
      | none =>
        simp only [hHeader, hSeason, hCr, hSgpa, Bool.false_eq_true, if_false, hCH, hNZ,
          hsome]
      | some gp =>
        simp only [hHeader, hSeason, hCr, hSgpa, Bool.false_eq_true, if_false, hCH, hNZ,
          hsome, hex, if_true]
  · conv_lhs => rw [ptLoopAux]
    simp only [hHeader, hSeason, hCr, hSgpa, Bool.false_eq_true, if_false, hCH, hNZ]

/-- C2 (witness): the lookahead-success step at a concrete A row with
gradePoint 4.0 and the lookahead-failure step at a row followed by another
course code. -/
theorem C2_witness :
    ptLoopAux 6 ["CS110".data, "Calc".data, "3".data, "A".data, "4.0".data] ptInit =
      ptLoopAux 5 []
        { ptInit with
          totalCreditHoursForGrade := ptInit.totalCreditHoursForGrade +
            (if mkRat 4 1 ≠ (0 : Rat) then 3 else 0)
          courses := ptInit.courses ++
            [{ Code := goTrimSpace ("CS110".data), Title := goTrimSpace ("Calc".data),
               CreditHours := 3, Grade := goTrimSpace ("A".data),
               GradePoint := mkRat 4 1 }]
          totalGradePoints := if (0 : Rat) < mkRat 4 1 then
            qadd ptInit.totalGradePoints (mkRat 4 1) else ptInit.totalGradePoints } :=
  (C2_gradepoint_lookahead 5 ("CS110".data) ("Calc".data) ("3".data) ("A".data) ptInit 3
    (by decide) (by decide) (by decide) (by decide) (by decide) (by decide)).1
    ("4.0".data) [] (mkRat 4 1) (by decide) (by decide)
